import Mathlib

/-!
Shallow embedding of `cognite/model_hosting/notebook/_setup_file.py` and
`cognite/model_hosting/notebook/_model_file.py`.

Conventions of the embedding:
* Python strings are Lean `String`s; character-level work happens on `String.data`.
* Python exceptions (`InvalidRequirements`, `InvalidCodeFormat`) are modelled by
  `Except String _`, the error payload being the exception message.
* A notebook cell is modelled by its `cell_type`, its `source` line list and the
  optional `tags` entry of its metadata (absent metadata and metadata without a
  `tags` key coincide: both make every tag lookup fail).
* The regular expressions of the source are compiled, by hand, to executable
  character-list matchers; each matcher is documented with the regex it embeds.
-/

deriving instance DecidableEq for Except

namespace CogniteNotebook

/-! ### Python string primitives -/

/-- The characters Python `str.isspace`/`str.strip` treat as whitespace
(ASCII fragment; the inputs of this system are ASCII). -/
def pyIsSpaceChar (c : Char) : Bool :=
  c = ' ' || c = '\t' || c = '\n' || c = '\r' || c = '\x0b' || c = '\x0c'

/-- Python `str.isspace`: nonempty and all whitespace. -/
def pyIsSpace (s : String) : Bool :=
  !s.data.isEmpty && s.data.all pyIsSpaceChar

/-- Python `str.strip()`. -/
def pyStrip (s : String) : String :=
  String.mk (((s.data.dropWhile pyIsSpaceChar).reverse.dropWhile pyIsSpaceChar).reverse)

/-- Python `line.startswith("#")`, on the character list. -/
def startsWithHashL : List Char → Bool
  | [] => false
  | c :: _ => c = '#'

/-- Python `line.startswith("#")`. -/
def startsWithHash (s : String) : Bool := startsWithHashL s.data

/-- Python `line[1:]`. -/
def pyDropOne (s : String) : String := String.mk (s.data.drop 1)

/-- Python `str.split(sep)` for a one-character separator (keeps empty pieces). -/
def splitOnChar (sep : Char) : List Char → List (List Char)
  | [] => [[]]
  | c :: cs =>
    match splitOnChar sep cs with
    | [] => [[]]
    | r :: rs => if c = sep then [] :: r :: rs else (c :: r) :: rs

/-- Python `source_code.split("\n")`. -/
def splitLines (s : String) : List String := (splitOnChar '\n' s.data).map String.mk

/-- Python `parameters.split(",")`. -/
def splitCommas (s : String) : List String := (splitOnChar ',' s.data).map String.mk

/-- Python `sep.join(pieces)`. -/
def joinSep (sep : String) : List String → String
  | [] => ""
  | [x] => x
  | x :: y :: xs => x ++ sep ++ joinSep sep (y :: xs)

/-- Python `"".join(pieces)`. -/
def concatAll : List String → String
  | [] => ""
  | s :: rest => s ++ concatAll rest

/-! ### Notebook data model -/

/-- One notebook cell: its kind, its source lines, and the optional `tags`
entry of its metadata. -/
structure Cell where
  cell_type : String
  source : List String
  tags : Option (List String) := none
deriving DecidableEq

/-- A notebook: an ordered list of cells (the `nbformat == 4` check happens in
the excluded I/O layer). -/
structure Notebook where
  cells : List Cell
deriving DecidableEq

/-! ### `_setup_file.py` -/

/-- `_is_raw_requirement_cell`. -/
def _is_raw_requirement_cell (cell : Cell) : Bool :=
  cell.cell_type == "raw" &&
    (match cell.tags with
     | some ts => ts.contains "requirements"
     | none => false)

/-- `_extract_raw_requirement_cell`. -/
def _extract_raw_requirement_cell (cell : Cell) : List String :=
  (cell.source.map pyStrip).filter (fun r => r != "")

/-- Matcher for `re.fullmatch(r"# *!word *\n?", line)`, on the character
list: a hash, any number of spaces, the word, any number of spaces, an
optional newline. -/
def markerMatchL (word : List Char) : List Char → Bool
  | [] => false
  | c :: rest =>
    c = '#' &&
      (let r1 := rest.dropWhile (· = ' ')
       word.isPrefixOf r1 &&
         (let r2 := (r1.drop word.length).dropWhile (· = ' ')
          r2.isEmpty || r2 = ['\n']))

/-- Matcher for `re.fullmatch(r"# *!word *\n?", line)`. -/
def markerMatch (word : List Char) (s : String) : Bool := markerMatchL word s.data

/-- `_is_comment_requirement_cell`. -/
def _is_comment_requirement_cell (cell : Cell) : Bool :=
  cell.cell_type == "code" && !cell.source.isEmpty &&
    markerMatch "!requirements".data (cell.source.headD "")

/-- The comparator alternatives of the requirement grammar. -/
def cmpOperators : List String := ["<", "<=", "!=", "==", ">=", ">", "~=", "==="]

/-- `[a-z0-9]`. -/
def isReqNameStart (c : Char) : Bool := ('a' ≤ c && c ≤ 'z') || ('0' ≤ c && c ≤ '9')

/-- `[a-z0-9_\-.]`. -/
def isReqNameChar (c : Char) : Bool := isReqNameStart c || c = '_' || c = '-' || c = '.'

/-- `[^ \n]`. -/
def isVersionChar (c : Char) : Bool := c != ' ' && c != '\n'

/-- Matcher for the tail `((<|<=|!=|==|>=|>|~=|===)[^ \n]+)` of the
requirement regex. -/
def matchesCmpVersion (cs : List Char) : Bool :=
  cmpOperators.any (fun op =>
    op.data.isPrefixOf cs &&
      (let v := cs.drop op.data.length
       !v.isEmpty && v.all isVersionChar))

/-- Matcher for `re.fullmatch(r"[a-z0-9][a-z0-9_\-.]*((<|<=|!=|==|>=|>|~=|===)[^ \n]+)?", s)`,
on the character list.  The name class and the comparator-start characters are
disjoint, so the greedy scan below decides the backtracking regex exactly. -/
def reqFormatL : List Char → Bool
  | [] => false
  | c :: cs =>
    isReqNameStart c &&
      (let rest := cs.dropWhile isReqNameChar
       rest.isEmpty || matchesCmpVersion rest)

/-- Matcher for `re.fullmatch(r"[a-z0-9][a-z0-9_\-.]*((<|<=|!=|==|>=|>|~=|===)[^ \n]+)?", s)`. -/
def matchesRequirementFormat (s : String) : Bool := reqFormatL s.data

/-- `_sanity_check_requirements`: checks the specifiers in order, raising at
the first one that fails the grammar. -/
def _sanity_check_requirements : List String → Except String Unit
  | [] => .ok ()
  | r :: rs =>
    if matchesRequirementFormat r then _sanity_check_requirements rs
    else .error ("Invalid format for the requirement `" ++ r ++ "`")

/-- The loop body of `_extract_comment_requirement_cell`, over the lines after
the marker line. -/
def _extract_comment_requirement_lines : List String → Except String (List String)
  | [] => .ok []
  | line :: rest =>
    if !startsWithHash line && !pyIsSpace line then
      .error "All lines in the requirement cell must start with #"
    else
      let requirement := pyStrip (pyDropOne line)
      match _extract_comment_requirement_lines rest with
      | .error e => .error e
      | .ok rs => .ok (if requirement != "" then requirement :: rs else rs)

/-- `_extract_comment_requirement_cell`. -/
def _extract_comment_requirement_cell (cell : Cell) : Except String (List String) :=
  _extract_comment_requirement_lines (cell.source.drop 1)

/-- `_requirement_cells`. -/
def _requirement_cells (nb : Notebook) : List Cell :=
  nb.cells.filter (fun cell => _is_raw_requirement_cell cell || _is_comment_requirement_cell cell)

/-- `extract_requirements`. -/
def extract_requirements (nb : Notebook) : Except String (List String) :=
  match _requirement_cells nb with
  | [] => .error "Couldn\x27t find any requirements"
  | [cell] =>
    let extracted : Except String (List String) :=
      if _is_raw_requirement_cell cell then .ok (_extract_raw_requirement_cell cell)
      else if _is_comment_requirement_cell cell then _extract_comment_requirement_cell cell
      else .error "AssertionError"
    match extracted with
    | .error e => .error e
    | .ok requirements =>
      match _sanity_check_requirements requirements with
      | .error e => .error e
      | .ok _ => .ok requirements
  | _ :: _ :: _ => .error "Only one requirement cell is allowed, but found multiple"

/-! ### `_model_file.py`: extraction -/

/-- `_should_include_code_cell`.  (`headD ""` stands for Python's
`cell["source"][0]`; every caller first checks that the source is
nonempty.) -/
def _should_include_code_cell (cell : Cell) : Bool :=
  let include_by_tag :=
    match cell.tags with
    | some ts => ts.contains "model"
    | none => false
  let include_by_comment := markerMatch "!model".data (cell.source.headD "")
  include_by_tag || include_by_comment

/-- The guard of the loop of `extract_source_code`: a code cell with nonempty
source that `_should_include_code_cell` accepts. -/
def includedCodeCell (cell : Cell) : Bool :=
  cell.cell_type == "code" && !cell.source.isEmpty && _should_include_code_cell cell

/-- The pieces accumulated by the loop of `extract_source_code`: for every
included cell, a marker line, the source lines, and a `"\n\n\n"` separator. -/
def collectCellPieces : List Cell → List String
  | [] => []
  | cell :: rest =>
    (if includedCodeCell cell then "# !notebook-cell\n" :: (cell.source ++ ["\n\n\n"]) else [])
      ++ collectCellPieces rest

/-- `extract_source_code`: `"".join(source_code[:-1] + ["\n"])`. -/
def extract_source_code (nb : Notebook) : String :=
  concatAll (collectCellPieces nb.cells).dropLast ++ "\n"

/-! ### `_model_file.py`: signature lookup and validation -/

/-- Splits a character list at its first `')'`; `none` when there is none.
The first component never contains `')'`. -/
def splitAtParen : List Char → Option (List Char × List Char)
  | [] => none
  | c :: cs =>
    if c = ')' then some ([], cs)
    else
      match splitAtParen cs with
      | none => none
      | some (ps, rest) => some (c :: ps, rest)

/-- The tail of a def line after the closing paren: `':'` then spaces only. -/
def isColonThenSpaces : List Char → Bool
  | [] => false
  | c :: cs => c = ':' && cs.all (· = ' ')

/-- Matcher for `re.fullmatch(r"def name\(([^)]*)\): *", line)` (the tracked
function names contain no regex metacharacters, so the name is literal);
returns the captured raw parameter string. -/
def matchDefLine (name : String) (line : String) : Option String :=
  if (("def " ++ name ++ "(").data).isPrefixOf line.data then
    match splitAtParen (line.data.drop ("def " ++ name ++ "(").data.length) with
    | none => none
    | some (ps, rest) => if isColonThenSpaces rest then some (String.mk ps) else none
  else none

/-- The `parameter_signatures` list of `_get_function_signature`: one entry
per matching line, in line order. -/
def _collect_signatures (source_code name : String) : List String :=
  (splitLines source_code).filterMap (fun line => matchDefLine name line)

/-- `_get_function_signature`. -/
def _get_function_signature (source_code name : String) : Except String (Option String) :=
  match _collect_signatures source_code name with
  | [] => .ok none
  | [p] => .ok (some p)
  | _ :: _ :: _ => .error ("Multiple definitions of " ++ name ++ "()")

/-- Matcher for `re.fullmatch(r"lead(,.*)?", p)` where `lead` is a literal:
equal to `lead`, or `lead ++ ","` followed by anything without a newline
(`.` does not match `"\n"`). -/
def matchesLeadThenAny (lead : String) (p : String) : Bool :=
  p == lead ||
    ((lead ++ ",").data.isPrefixOf p.data && (p.data.drop (lead.data.length + 1)).all (· ≠ '\n'))

/-- `_source_code_has_function`. -/
def _source_code_has_function (source_code name : String) (pat : String → Bool)
    (parameter_error_msg : String) : Except String Bool :=
  match _get_function_signature source_code name with
  | .error e => .error e
  | .ok none => .ok false
  | .ok (some parameters) => if pat parameters then .ok true else .error parameter_error_msg

def trainParamErrMsg : String :=
  "train_model() must have `open_artifact` as first parameter (additional user specified parameters are also allowed)"

def loadParamErrMsg : String :=
  "load_model() must have `open_artifact` as the only parameter"

def predictWithLoadErrMsg : String :=
  "predict() must have `model` as first parameter and `instance` as second parameter (additional user specified parameters are also allowed) when there\x27s a load_model() function"

def predictStatelessErrMsg : String :=
  "predict() must have `instance` as first parameter(additional user specified parameters are also allowed) when there\x27s no load_model() function"

def loadWithoutPredictErrMsg : String :=
  "A load_model() function was specified, but not a predict() function"

/-- `_source_code_has_train`: pattern `open_artifact(,.*)?`. -/
def _source_code_has_train (source_code : String) : Except String Bool :=
  _source_code_has_function source_code "train_model" (matchesLeadThenAny "open_artifact")
    trainParamErrMsg

/-- `_source_code_has_load_and_predict`: `load_model` must have exactly
`open_artifact`; `predict` must match `model, instance(,.*)?` when
`load_model` is present and `instance(,.*)?` otherwise; a `load_model`
without a `predict` is an error. -/
def _source_code_has_load_and_predict (source_code : String) : Except String (Bool × Bool) :=
  match _source_code_has_function source_code "load_model" (fun p => p == "open_artifact")
      loadParamErrMsg with
  | .error e => .error e
  | .ok has_load =>
    let predictChecked : Except String Bool :=
      if has_load then
        _source_code_has_function source_code "predict" (matchesLeadThenAny "model, instance")
          predictWithLoadErrMsg
      else
        _source_code_has_function source_code "predict" (matchesLeadThenAny "instance")
          predictStatelessErrMsg
    match predictChecked with
    | .error e => .error e
    | .ok has_predict =>
      if has_load && !has_predict then .error loadWithoutPredictErrMsg
      else .ok (has_load, has_predict)

/-- `_get_function_parameters`: split the raw signature on commas, strip each
name, and reject duplicates.  (The `None` case is the Python `assert`,
unreachable in the validated flows.) -/
def _get_function_parameters (source_code name : String) : Except String (List String) :=
  match _get_function_signature source_code name with
  | .error e => .error e
  | .ok none => .error ("The function `" ++ name ++ "` is not defined")
  | .ok (some sig) =>
    let parameters := (splitCommas sig).map pyStrip
    if parameters.Nodup then .ok parameters
    else .error ("Duplicate parameters `` in " ++ name ++ "()")

/-- `_get_user_defined_predict_parameters`: everything after `instance`.
(`indexOf` stands for Python's `list.index`; after validation `"instance"`
is always present, the only case in which the two differ.) -/
def _get_user_defined_predict_parameters (source_code : String) : Except String (List String) :=
  match _get_function_parameters source_code "predict" with
  | .error e => .error e
  | .ok parameters => .ok (parameters.drop (parameters.indexOf "instance" + 1))

/-- `_get_user_defined_train_parameters`: everything after `open_artifact`. -/
def _get_user_defined_train_parameters (source_code : String) : Except String (List String) :=
  match _get_function_parameters source_code "train_model" with
  | .error e => .error e
  | .ok parameters => .ok (parameters.drop 1)

/-! ### `_model_file.py`: glue synthesis -/

def _glue_code_start : String := "# !auto-generated\nclass Model:"

def _glue_code_constructor_with_state : String :=
  "    def __init__(self, model):\n        self._model = model\n"

/-- `_glue_code_train.format(u, u)`. -/
def _glue_code_train (u : String) : String :=
  "    @staticmethod\n    def train(open_artifact, " ++ u ++ "):\n        train_model(open_artifact, " ++ u ++ ")\n"

def _glue_code_load : String :=
  "    @staticmethod\n    def load(open_artifact):\n        return Model(load_model(open_artifact))\n"

def _glue_code_stateless_load : String :=
  "    @staticmethod\n    def load(open_artifact):\n        return Model()\n"

/-- `_glue_code_predict.format(u, u)`. -/
def _glue_code_predict (u : String) : String :=
  "    def predict(self, instance, " ++ u ++ "):\n        return predict(self._model, instance, " ++ u ++ ")\n"

/-- `_glue_code_stateless_predict.format(u, u)`. -/
def _glue_code_stateless_predict (u : String) : String :=
  "    def predict(self, instance, " ++ u ++ "):\n        return predict(instance, " ++ u ++ ")\n"

inductive AvailableOperations where
  | PREDICT
  | TRAIN
  | PREDICT_TRAIN
deriving DecidableEq

/-- `available_operations in [AvailableOperations.TRAIN, AvailableOperations.PREDICT_TRAIN]`. -/
def shouldHaveTrain : AvailableOperations → Bool
  | .TRAIN => true
  | .PREDICT_TRAIN => true
  | .PREDICT => false

/-- `available_operations in [AvailableOperations.PREDICT, AvailableOperations.PREDICT_TRAIN]`. -/
def shouldHavePredict : AvailableOperations → Bool
  | .PREDICT => true
  | .PREDICT_TRAIN => true
  | .TRAIN => false

def missingTrainErrMsg : String := "Missing required train_model() function"
def missingPredictErrMsg : String := "Missing required predict() functions"
def extraTrainErrMsg : String :=
  "A train_model() function should not be defined when no training is performed in Model Hosting"
def extraPredictErrMsg : String :=
  "A predict() function should not be defined when no prediction is performed in Model Hosting"

/-- `get_model_file_content`: validate, cross-check against the requested
operations, then emit the source followed by the glue class, the parts
joined by `"\n"`. -/
def get_model_file_content (source_code : String) (available_operations : AvailableOperations) :
    Except String String :=
  match _source_code_has_train source_code with
  | .error e => .error e
  | .ok has_train =>
    match _source_code_has_load_and_predict source_code with
    | .error e => .error e
    | .ok (has_load, has_predict) =>
      let should_have_train := shouldHaveTrain available_operations
      let should_have_predict := shouldHavePredict available_operations
      if should_have_train && !has_train then .error missingTrainErrMsg
      else if should_have_predict && !has_predict then .error missingPredictErrMsg
      else if !should_have_train && has_train then .error extraTrainErrMsg
      else if !should_have_predict && has_predict then .error extraPredictErrMsg
      else
        let trainPart : Except String (List String) :=
          if has_train then
            match _get_user_defined_train_parameters source_code with
            | .error e => .error e
            | .ok ps => .ok [_glue_code_train (joinSep ", " ps)]
          else .ok []
        match trainPart with
        | .error e => .error e
        | .ok trainLines =>
          let predictPart : Except String (List String) :=
            if has_predict then
              match _get_user_defined_predict_parameters source_code with
              | .error e => .error e
              | .ok ps =>
                .ok ((if has_load then [_glue_code_load] else [_glue_code_stateless_load]) ++
                  [(if has_load then _glue_code_predict else _glue_code_stateless_predict)
                    (joinSep ", " ps)])
            else .ok []
          match predictPart with
          | .error e => .error e
          | .ok predictLines =>
            .ok (joinSep "\n"
              ([source_code ++ "\n", _glue_code_start] ++
                (if has_load then [_glue_code_constructor_with_state] else []) ++
                trainLines ++ predictLines))

/-! ### Helper lemmas -/

lemma eq_append_drop_of_isPrefixOf (l₁ l₂ : List Char) (h : l₁.isPrefixOf l₂ = true) :
    l₂ = l₁ ++ l₂.drop l₁.length := by
  obtain ⟨t, rfl⟩ := List.isPrefixOf_iff_prefix.mp h
  rw [List.drop_left]

lemma splitAtParen_append (ps rest : List Char) (h : ps.all (fun c => c ≠ ')') = true) :
    splitAtParen (ps ++ ')' :: rest) = some (ps, rest) := by
  induction ps with
  | nil => simp [splitAtParen]
  | cons c cs ih =>
    simp only [List.all_cons, Bool.and_eq_true, decide_eq_true_eq] at h
    simp [splitAtParen, h.1, ih (by simpa using h.2)]

lemma splitAtParen_sound (cs : List Char) : ∀ ps rest, splitAtParen cs = some (ps, rest) →
    cs = ps ++ ')' :: rest ∧ ps.all (fun c => c ≠ ')') = true := by
  induction cs with
  | nil => intro ps rest h; simp [splitAtParen] at h
  | cons c cs ih =>
    intro ps rest h
    by_cases hc : c = ')'
    · subst hc
      simp [splitAtParen] at h
      obtain ⟨h1, h2⟩ := h
      subst h1; subst h2; simp
    · rw [splitAtParen, if_neg hc] at h
      cases hsp : splitAtParen cs with
      | none => rw [hsp] at h; simp at h
      | some pr =>
        rw [hsp] at h
        obtain ⟨a, b⟩ := pr
        simp only [Option.some.injEq, Prod.mk.injEq] at h
        obtain ⟨h1, h2⟩ := h
        obtain ⟨hcs, hall⟩ := ih a b hsp
        subst h1; subst h2
        constructor
        · simp [hcs]
        · simp only [List.all_cons, Bool.and_eq_true, decide_eq_true_eq]
          exact ⟨hc, by simpa using hall⟩

lemma string_mk_data (s : String) : String.mk s.data = s := by cases s; rfl

/-- `matchDefLine` succeeds exactly on the lines of the shape
`def <name>(<params>):<spaces>` where the params contain no `')'`. -/
lemma matchDefLine_eq_some_iff (name line ps : String) :
    matchDefLine name line = some ps ↔
      ∃ trail : List Char,
        line.data = ("def " ++ name ++ "(").data ++ (ps.data ++ ')' :: ':' :: trail) ∧
        ps.data.all (fun c => c ≠ ')') = true ∧ trail.all (fun c => c = ' ') = true := by
  constructor
  · intro h
    unfold matchDefLine at h
    by_cases hpre : (("def " ++ name ++ "(").data).isPrefixOf line.data = true
    · rw [if_pos hpre] at h
      cases hsp : splitAtParen (line.data.drop ("def " ++ name ++ "(").data.length) with
      | none => rw [hsp] at h; simp at h
      | some pr =>
        obtain ⟨a, rest⟩ := pr
        rw [hsp] at h
        simp only at h
        by_cases hcol : isColonThenSpaces rest = true
        · rw [if_pos hcol] at h
          simp only [Option.some.injEq] at h
          have hpsa : ps.data = a := by rw [← h]
          obtain ⟨hdrop, hall⟩ := splitAtParen_sound _ a rest hsp
          cases rest with
          | nil => simp [isColonThenSpaces] at hcol
          | cons c rest' =>
            simp only [isColonThenSpaces, Bool.and_eq_true, decide_eq_true_eq] at hcol
            refine ⟨rest', ?_, ?_, hcol.2⟩
            · calc line.data
                  = ("def " ++ name ++ "(").data
                      ++ line.data.drop ("def " ++ name ++ "(").data.length :=
                    eq_append_drop_of_isPrefixOf _ _ hpre
                _ = ("def " ++ name ++ "(").data ++ (ps.data ++ ')' :: ':' :: rest') := by
                    rw [hdrop, hpsa, hcol.1]
            · rw [hpsa]; exact hall
        · rw [if_neg hcol] at h; simp at h
    · rw [if_neg hpre] at h; simp at h
  · rintro ⟨trail, hline, hps, htrail⟩
    have hpre : (("def " ++ name ++ "(").data).isPrefixOf line.data = true := by
      rw [hline]
      exact List.isPrefixOf_iff_prefix.mpr ⟨_, rfl⟩
    unfold matchDefLine
    rw [if_pos hpre]
    have hdrop : line.data.drop ("def " ++ name ++ "(").data.length
        = ps.data ++ ')' :: ':' :: trail := by
      rw [hline, List.drop_left]
    rw [hdrop, splitAtParen_append _ _ hps]
    simp [isColonThenSpaces, htrail, string_mk_data]

/-- Concrete duplicate-definition source: two identical `train_model` lines. -/
def dupTrainSource : String :=
  "def train_model(open_artifact):\n    pass\ndef train_model(open_artifact):\n    pass\n"

/-- Concrete source defining only `train_model(open_artifact, data_spec)`. -/
def trainOnlySource : String := "def train_model(open_artifact, data_spec):\n    pass\n"

set_option maxRecDepth 20000

/-! ### Claims -/

/-- C4: signature lookup scans line-by-line for lines of the exact form
`def <name>(<params>):` with optional trailing spaces; zero matching lines
gives absent, exactly one gives that line's raw parameter string, and more
than one raises `InvalidCodeFormat` — also when the duplicate signatures are
identical, as in `dupTrainSource`. -/
theorem claim4_signature_lookup :
    (∀ source_code name, _collect_signatures source_code name = [] →
        _get_function_signature source_code name = .ok none)
  ∧ (∀ source_code name p, _collect_signatures source_code name = [p] →
        _get_function_signature source_code name = .ok (some p))
  ∧ (∀ source_code name, 2 ≤ (_collect_signatures source_code name).length →
        _get_function_signature source_code name
          = .error ("Multiple definitions of " ++ name ++ "()"))
  ∧ (∀ name line ps, matchDefLine name line = some ps ↔
      ∃ trail : List Char,
        line.data = ("def " ++ name ++ "(").data ++ (ps.data ++ ')' :: ':' :: trail) ∧
        ps.data.all (fun c => c ≠ ')') = true ∧ trail.all (fun c => c = ' ') = true)
  ∧ _get_function_signature dupTrainSource "train_model"
      = .error "Multiple definitions of train_model()" := by
  refine ⟨?_, ?_, ?_, matchDefLine_eq_some_iff, by decide⟩
  · intro source_code name h
    unfold _get_function_signature
    rw [h]
  · intro source_code name p h
    unfold _get_function_signature
    rw [h]
  · intro source_code name h
    unfold _get_function_signature
    cases hc : _collect_signatures source_code name with
    | nil => rw [hc] at h; simp at h
    | cons a rest =>
      cases rest with
      | nil => rw [hc] at h; simp at h
      | cons b rest' => rfl

/-- C4 witness: the third conjunct applied to the concrete duplicate source. -/
theorem claim4_signature_lookup_witness :
    _get_function_signature dupTrainSource "train_model"
      = .error ("Multiple definitions of " ++ "train_model" ++ "()") :=
  claim4_signature_lookup.2.2.1 dupTrainSource "train_model" (by decide)

/-- C2: signature-shape validation.  With `train_model` defined, its raw
parameter string must match `open_artifact(,.*)?` or `_source_code_has_train`
raises; with `load_model` defined, its parameter string must be exactly
`open_artifact` or `_source_code_has_load_and_predict` raises; `predict` must
match `model, instance(,.*)?` when `load_model` is present and `instance(,.*)?`
when it is absent; and a valid `load_model` without a `predict` raises. -/
theorem claim2_parameter_validation :
    (∀ s p, _get_function_signature s "train_model" = .ok (some p) →
        _source_code_has_train s
          = if matchesLeadThenAny "open_artifact" p then .ok true
            else .error trainParamErrMsg)
  ∧ (∀ s p, _get_function_signature s "load_model" = .ok (some p) →
        (p == "open_artifact") = false →
        _source_code_has_load_and_predict s = .error loadParamErrMsg)
  ∧ (∀ s p, _get_function_signature s "load_model" = .ok (some "open_artifact") →
        _get_function_signature s "predict" = .ok (some p) →
        _source_code_has_load_and_predict s
          = if matchesLeadThenAny "model, instance" p then .ok (true, true)
            else .error predictWithLoadErrMsg)
  ∧ (∀ s p, _get_function_signature s "load_model" = .ok none →
        _get_function_signature s "predict" = .ok (some p) →
        _source_code_has_load_and_predict s
          = if matchesLeadThenAny "instance" p then .ok (false, true)
            else .error predictStatelessErrMsg)
  ∧ (∀ s, _get_function_signature s "load_model" = .ok (some "open_artifact") →
        _get_function_signature s "predict" = .ok none →
        _source_code_has_load_and_predict s = .error loadWithoutPredictErrMsg) := by
  refine ⟨?_, ?_, ?_, ?_, ?_⟩
  · intro s p h
    unfold _source_code_has_train _source_code_has_function
    rw [h]
  · intro s p h hp
    unfold _source_code_has_load_and_predict _source_code_has_function
    rw [h]
    simp [hp]
  · intro s p hl hp
    unfold _source_code_has_load_and_predict _source_code_has_function
    rw [hl, hp]
    by_cases hm : matchesLeadThenAny "model, instance" p = true <;> simp [hm]
  · intro s p hl hp
    unfold _source_code_has_load_and_predict _source_code_has_function
    rw [hl, hp]
    by_cases hm : matchesLeadThenAny "instance" p = true <;> simp [hm]
  · intro s hl hp
    unfold _source_code_has_load_and_predict _source_code_has_function
    rw [hl, hp]
    simp

/-- C2 witness: the first conjunct at a train_model whose first parameter is
not `open_artifact`. -/
theorem claim2_parameter_validation_witness :
    _source_code_has_train "def train_model(data_spec):\n    pass\n"
      = .error trainParamErrMsg := by
  have := claim2_parameter_validation.1 "def train_model(data_spec):\n    pass\n"
    "data_spec" (by decide)
  rw [this]
  decide

/-- C3: capability cross-checks of `get_model_file_content`.  Each of the
four mismatches between the requested operations and the discovered functions
raises `InvalidCodeFormat`: train required but absent, predict required but
absent, train present but not required, predict present but not required.
For the concrete `trainOnlySource`, requesting Train-only succeeds and
requesting Predict-only fails. -/
theorem claim3_capability_crosscheck :
    (∀ s ops, _source_code_has_train s = .ok false → shouldHaveTrain ops = true →
        ∃ e, get_model_file_content s ops = .error e)
  ∧ (∀ s ops l, _source_code_has_load_and_predict s = .ok (l, false) →
        shouldHavePredict ops = true →
        ∃ e, get_model_file_content s ops = .error e)
  ∧ (∀ s ops, _source_code_has_train s = .ok true → shouldHaveTrain ops = false →
        ∃ e, get_model_file_content s ops = .error e)
  ∧ (∀ s ops l, _source_code_has_load_and_predict s = .ok (l, true) →
        shouldHavePredict ops = false →
        ∃ e, get_model_file_content s ops = .error e)
  ∧ (get_model_file_content trainOnlySource .TRAIN).isOk = true
  ∧ get_model_file_content trainOnlySource .PREDICT = .error missingPredictErrMsg := by
  refine ⟨?_, ?_, ?_, ?_, by decide, by decide⟩
  · intro s ops h hops
    cases hlp : _source_code_has_load_and_predict s with
    | error e => exact ⟨e, by simp [get_model_file_content, h, hlp]⟩
    | ok lp =>
      obtain ⟨l, p⟩ := lp
      exact ⟨missingTrainErrMsg, by simp [get_model_file_content, h, hlp, hops]⟩
  · intro s ops l hlp hops
    cases hT : _source_code_has_train s with
    | error e => exact ⟨e, by simp [get_model_file_content, hT]⟩
    | ok b =>
      by_cases hb : (shouldHaveTrain ops && !b) = true
      · exact ⟨missingTrainErrMsg, by simp [get_model_file_content, hT, hlp, hb]⟩
      · exact ⟨missingPredictErrMsg, by simp [get_model_file_content, hT, hlp, hb, hops]⟩
  · intro s ops h hops
    cases hlp : _source_code_has_load_and_predict s with
    | error e => exact ⟨e, by simp [get_model_file_content, h, hlp]⟩
    | ok lp =>
      obtain ⟨l, p⟩ := lp
      by_cases hp : (shouldHavePredict ops && !p) = true
      · exact ⟨missingPredictErrMsg, by simp [get_model_file_content, h, hlp, hp, hops]⟩
      · exact ⟨extraTrainErrMsg, by simp [get_model_file_content, h, hlp, hp, hops]⟩
  · intro s ops l hlp hops
    cases hT : _source_code_has_train s with
    | error e => exact ⟨e, by simp [get_model_file_content, hT]⟩
    | ok b =>
      cases ops with
      | PREDICT => simp [shouldHavePredict] at hops
      | PREDICT_TRAIN => simp [shouldHavePredict] at hops
      | TRAIN =>
        cases b with
        | false =>
          exact ⟨missingTrainErrMsg,
            by simp [get_model_file_content, hT, hlp, shouldHaveTrain, shouldHavePredict]⟩
        | true =>
          exact ⟨extraPredictErrMsg,
            by simp [get_model_file_content, hT, hlp, shouldHaveTrain, shouldHavePredict]⟩

/-- C3 witness: the first conjunct at the empty source and a Train-only
request (no `train_model` is defined there). -/
theorem claim3_capability_crosscheck_witness :
    ∃ e, get_model_file_content "" .TRAIN = .error e :=
  claim3_capability_crosscheck.1 "" .TRAIN (by decide) (by decide)

/-- C1: for a validated source with both `load_model` and `predict` present,
the synthesized file is the source, a blank line, and the wrapper class: the
state-holding constructor, the optional train entry point, a `load` that
calls `load_model(open_artifact)` and wraps the result in `Model`, and a
`predict` forwarding the stored model, `instance` and the user-defined extra
predict parameters (comma-joined, order-preserving) to the user's
`predict`. -/
theorem claim1_glue_synthesis (s : String) (ops : AvailableOperations) (b : Bool)
    (tps pps : List String)
    (hT : _source_code_has_train s = .ok b)
    (hLP : _source_code_has_load_and_predict s = .ok (true, true))
    (hOpsT : shouldHaveTrain ops = b)
    (hOpsP : shouldHavePredict ops = true)
    (hTps : (if b then _get_user_defined_train_parameters s else .ok tps) = .ok tps)
    (hPps : _get_user_defined_predict_parameters s = .ok pps) :
    get_model_file_content s ops = .ok
      (s ++ "\n\n" ++ _glue_code_start ++ "\n" ++ _glue_code_constructor_with_state ++ "\n"
        ++ (if b then _glue_code_train (joinSep ", " tps) ++ "\n" else "")
        ++ _glue_code_load ++ "\n" ++ _glue_code_predict (joinSep ", " pps)) := by
  have hnn : ("\n\n" : String) = "\n" ++ "\n" := rfl
  cases b with
  | false =>
    rw [if_neg (by simp)] at hTps
    simp only [get_model_file_content, hT, hLP, hOpsT, hOpsP, hPps, hnn, Bool.false_and,
      Bool.and_false, Bool.not_false, Bool.and_true, Bool.not_true, Bool.false_eq_true,
      if_false, if_true, Bool.true_and, joinSep, List.append_nil, List.nil_append,
      List.cons_append, if_neg]
    simp [joinSep, String.append_assoc]
  | true =>
    rw [if_pos rfl] at hTps
    simp only [get_model_file_content, hT, hLP, hOpsT, hOpsP, hPps, hTps, hnn, Bool.true_and,
      Bool.and_true, Bool.not_true, Bool.and_false, Bool.false_eq_true, if_false, if_true,
      joinSep, List.append_nil, List.nil_append, List.cons_append]
    simp [joinSep, String.append_assoc]

/-- C1 witness: the load+predict example source, Predict-only request. -/
theorem claim1_glue_synthesis_witness :
    get_model_file_content
        "def load_model(open_artifact):\n    pass\ndef predict(model, instance):\n    pass\n"
        .PREDICT
      = .ok
        ("def load_model(open_artifact):\n    pass\ndef predict(model, instance):\n    pass\n"
          ++ "\n\n" ++ _glue_code_start ++ "\n" ++ _glue_code_constructor_with_state ++ "\n"
          ++ (if false then _glue_code_train (joinSep ", " []) ++ "\n" else "")
          ++ _glue_code_load ++ "\n" ++ _glue_code_predict (joinSep ", " [])) :=
  claim1_glue_synthesis
    "def load_model(open_artifact):\n    pass\ndef predict(model, instance):\n    pass\n"
    .PREDICT false [] [] (by decide) (by decide) (by decide) (by decide) (by decide) (by decide)

/-! ### C5: assembled source shape -/

/-- One included cell's contribution: the marker line and the cell's source
lines, verbatim. -/
def cellBlock (cell : Cell) : String := "# !notebook-cell\n" ++ concatAll cell.source

lemma concatAll_append (l₁ l₂ : List String) :
    concatAll (l₁ ++ l₂) = concatAll l₁ ++ concatAll l₂ := by
  induction l₁ with
  | nil => simp [concatAll]
  | cons x xs ih => simp [concatAll, ih, String.append_assoc]

lemma collectCellPieces_eq_nil_iff (cells : List Cell) :
    collectCellPieces cells = [] ↔ cells.filter includedCodeCell = [] := by
  induction cells with
  | nil => simp [collectCellPieces]
  | cons c cs ih =>
    by_cases hc : includedCodeCell c = true
    · simp [collectCellPieces, hc, List.filter_cons, ih]
    · simp [collectCellPieces, hc, List.filter_cons, ih]

lemma concat_dropLast_collect (cells : List Cell) :
    concatAll (collectCellPieces cells).dropLast
      = joinSep "\n\n\n" ((cells.filter includedCodeCell).map cellBlock) := by
  induction cells with
  | nil => simp [collectCellPieces, joinSep, concatAll]
  | cons c cs ih =>
    by_cases hc : includedCodeCell c = true
    · have hstep : collectCellPieces (c :: cs)
          = ("# !notebook-cell\n" :: (c.source ++ ["\n\n\n"])) ++ collectCellPieces cs := by
        simp [collectCellPieces, hc]
      cases hrest : collectCellPieces cs with
      | nil =>
        have hfil := (collectCellPieces_eq_nil_iff cs).mp hrest
        rw [hstep, hrest, List.append_nil]
        have hsplit : ("# !notebook-cell\n" :: (c.source ++ ["\n\n\n"]))
            = ("# !notebook-cell\n" :: c.source) ++ ["\n\n\n"] := by simp
        rw [hsplit, List.dropLast_concat, List.filter_cons, if_pos hc, hfil]
        simp [joinSep, cellBlock, concatAll]
      | cons d ds =>
        have hfil : cs.filter includedCodeCell ≠ [] := by
          intro hnil
          rw [(collectCellPieces_eq_nil_iff cs).mpr hnil] at hrest
          simp at hrest
        rw [hstep, List.dropLast_append_of_ne_nil _ (by rw [hrest]; simp),
          concatAll_append, ih, List.filter_cons, if_pos hc]
        cases hb : cs.filter includedCodeCell with
        | nil => exact absurd hb hfil
        | cons e es =>
          simp [joinSep, cellBlock, concatAll, concatAll_append, String.append_assoc]
    · have hstep : collectCellPieces (c :: cs) = collectCellPieces cs := by
        simp [collectCellPieces, hc]
      rw [hstep, ih, List.filter_cons, if_neg hc]

/-- The three-cell notebook of the spec's example. -/
def exampleCellA : Cell := ⟨"code", ["a()"], some ["model"]⟩
def exampleCellB : Cell := ⟨"code", ["b()"], none⟩
def exampleCellC : Cell := ⟨"code", ["# !model\n", "c()"], none⟩
def exampleNotebook : Notebook := ⟨[exampleCellA, exampleCellB, exampleCellC]⟩

/-- C5: `extract_source_code` emits, per included code cell in document
order, the marker line followed by the cell's lines verbatim, the blocks
separated by two blank lines (`"\n\n\n"`), the final separator trimmed to a
single trailing newline; with no included cells the result is exactly
`"\n"`; on the example notebook, cells 1 and 3 are included. -/
theorem claim5_extract_source_code :
    (∀ nb : Notebook, extract_source_code nb
        = joinSep "\n\n\n" ((nb.cells.filter includedCodeCell).map cellBlock) ++ "\n")
  ∧ (∀ nb : Notebook, nb.cells.filter includedCodeCell = [] → extract_source_code nb = "\n")
  ∧ exampleNotebook.cells.filter includedCodeCell = [exampleCellA, exampleCellC]
  ∧ extract_source_code exampleNotebook
      = "# !notebook-cell\na()\n\n\n# !notebook-cell\n# !model\nc()\n" := by
  have hmain : ∀ nb : Notebook, extract_source_code nb
      = joinSep "\n\n\n" ((nb.cells.filter includedCodeCell).map cellBlock) ++ "\n" := by
    intro nb
    unfold extract_source_code
    rw [concat_dropLast_collect]
  refine ⟨hmain, ?_, by decide, by decide⟩
  intro nb h
  rw [hmain, h]
  simp [joinSep]

/-- C5 witness: the no-included-cells conjunct at the empty notebook. -/
theorem claim5_extract_source_code_witness : extract_source_code ⟨[]⟩ = "\n" :=
  claim5_extract_source_code.2.1 ⟨[]⟩ (by decide)

/-! ### C9: exact marker matching -/

lemma dropWhile_append_of_all (p : Char → Bool) (l₁ l₂ : List Char) (h : l₁.all p = true) :
    (l₁ ++ l₂).dropWhile p = l₂.dropWhile p := by
  induction l₁ with
  | nil => simp
  | cons c cs ih =>
    simp only [List.all_cons, Bool.and_eq_true] at h
    simp [List.dropWhile_cons, h.1, ih h.2]

lemma dropWhile_eq_self_of_head (p : Char → Bool) (l : List Char)
    (h : ∀ x xs, l = x :: xs → p x = false) : l.dropWhile p = l := by
  cases l with
  | nil => rfl
  | cons x xs => simp [List.dropWhile_cons, h x xs rfl]

lemma space_decomp (l : List Char) :
    ∃ a, l = List.replicate a ' ' ++ l.dropWhile (· = ' ') := by
  refine ⟨(l.takeWhile (· = ' ')).length, ?_⟩
  have h1 : l.takeWhile (· = ' ') = List.replicate (l.takeWhile (· = ' ')).length ' ' :=
    List.eq_replicate_of_mem (fun c hc => by simpa using List.mem_takeWhile_imp hc)
  conv_lhs => rw [← List.takeWhile_append_dropWhile (· = ' ') l]
  rw [← h1]

/-- The declarative reading of the marker regex `# *!word *\n?`: a hash, `a`
spaces, the word, `b` spaces, and an optional final newline. -/
def MarkerLine (word : List Char) (s : String) : Prop :=
  ∃ a b t, s.data = '#' :: (List.replicate a ' ' ++ (word ++ (List.replicate b ' ' ++ t)))
    ∧ (t = [] ∨ t = ['\n'])

lemma markerMatchL_iff (w : List Char) (l : List Char) :
    markerMatchL ('!' :: w) l = true ↔
      ∃ a b t, l = '#' :: (List.replicate a ' ' ++ (('!' :: w) ++ (List.replicate b ' ' ++ t)))
        ∧ (t = [] ∨ t = ['\n']) := by
  constructor
  · intro h
    cases l with
    | nil => simp [markerMatchL] at h
    | cons c rest =>
      simp only [markerMatchL, Bool.and_eq_true, decide_eq_true_eq, Bool.or_eq_true,
        List.isEmpty_iff] at h
      obtain ⟨hc, hpre, htail⟩ := h
      subst hc
      obtain ⟨a, ha⟩ := space_decomp rest
      have hr1 := eq_append_drop_of_isPrefixOf _ _ hpre
      obtain ⟨b, hb⟩ := space_decomp ((rest.dropWhile (· = ' ')).drop ('!' :: w).length)
      refine ⟨a, b, ((rest.dropWhile (· = ' ')).drop ('!' :: w).length).dropWhile (· = ' '),
        ?_, htail⟩
      congr 1
      conv_lhs => rw [ha]
      congr 1
      conv_lhs => rw [hr1]
      congr 1
  · rintro ⟨a, b, t, rfl, ht⟩
    have hall : (List.replicate a ' ').all (· = ' ') = true := by
      simp [List.all_eq_true]
    have hstep1 : ((List.replicate a ' ' ++ (('!' :: w) ++ (List.replicate b ' ' ++ t))).dropWhile
        (· = ' ')) = ('!' :: w) ++ (List.replicate b ' ' ++ t) := by
      rw [dropWhile_append_of_all _ _ _ hall]
      exact dropWhile_eq_self_of_head _ _ (by intro x xs hx; injection hx with h1 _; subst h1; decide)
    have hpre : (('!' :: w).isPrefixOf (('!' :: w) ++ (List.replicate b ' ' ++ t))) = true :=
      List.isPrefixOf_iff_prefix.mpr ⟨_, rfl⟩
    have hdrop : ((('!' :: w) ++ (List.replicate b ' ' ++ t)).drop ('!' :: w).length)
        = List.replicate b ' ' ++ t := List.drop_left _ _
    have hstep2 : (List.replicate b ' ' ++ t).dropWhile (· = ' ') = t := by
      rw [dropWhile_append_of_all _ _ _ (by simp [List.all_eq_true])]
      rcases ht with h1 | h1 <;> subst h1 <;> simp
    simp [markerMatchL, hstep1, hpre, hdrop, hstep2]
    rcases ht with h1 | h1 <;> simp [h1]

/-- C9: a code cell qualifies via the comment-marker form exactly when its
first source line is the marker — `# !requirements` for the requirement
extractor, `# !model` for the code extractor — up to internal/trailing
spaces and one optional trailing newline, and nothing else; a differing
first line never qualifies (for the code extractor this is stated for
untagged cells, whose only inclusion path is the marker). -/
theorem claim9_marker_exactness :
    (∀ s : String, markerMatch "!requirements".data s = true ↔ MarkerLine "!requirements".data s)
  ∧ (∀ s : String, markerMatch "!model".data s = true ↔ MarkerLine "!model".data s)
  ∧ (∀ cell : Cell, cell.cell_type = "code" → cell.source ≠ [] →
      (_is_comment_requirement_cell cell = true ↔
        MarkerLine "!requirements".data (cell.source.headD "")))
  ∧ (∀ cell : Cell, cell.tags = none → cell.cell_type = "code" → cell.source ≠ [] →
      (includedCodeCell cell = true ↔ MarkerLine "!model".data (cell.source.headD ""))) := by
  have hreq : ∀ s : String,
      markerMatch "!requirements".data s = true ↔ MarkerLine "!requirements".data s := by
    intro s
    exact markerMatchL_iff "requirements".data s.data
  have hmod : ∀ s : String, markerMatch "!model".data s = true ↔ MarkerLine "!model".data s := by
    intro s
    exact markerMatchL_iff "model".data s.data
  refine ⟨hreq, hmod, ?_, ?_⟩
  · intro cell htype hsrc
    rw [← hreq]
    simp [_is_comment_requirement_cell, htype, List.isEmpty_iff, hsrc]
  · intro cell htags htype hsrc
    rw [← hmod]
    simp [includedCodeCell, _should_include_code_cell, htags, htype, List.isEmpty_iff, hsrc]

/-- C9 witness: the requirement-marker conjunct at the literal marker line. -/
theorem claim9_marker_exactness_witness :
    markerMatch "!requirements".data "# !requirements" = true :=
  (claim9_marker_exactness.1 "# !requirements").mpr
    ⟨1, 0, [], by decide, Or.inl rfl⟩

/-! ### C7: requirement-specifier grammar -/

/-- The declarative reading of the requirement regex
`^[a-z0-9][a-z0-9_.-]*((<|<=|!=|==|>=|>|~=|===)[^ \n]+)?$`, consuming the
whole string. -/
def ReqSpec (s : String) : Prop :=
  ∃ (c : Char) (body rest : List Char),
    s.data = c :: (body ++ rest) ∧ isReqNameStart c = true ∧ body.all isReqNameChar = true ∧
      (rest = [] ∨ ∃ op ∈ cmpOperators, ∃ v : List Char,
        rest = op.data ++ v ∧ v ≠ [] ∧ v.all isVersionChar = true)

lemma matchesCmpVersion_iff (cs : List Char) :
    matchesCmpVersion cs = true ↔
      ∃ op ∈ cmpOperators, ∃ v : List Char,
        cs = op.data ++ v ∧ v ≠ [] ∧ v.all isVersionChar = true := by
  unfold matchesCmpVersion
  rw [List.any_eq_true]
  constructor
  · rintro ⟨op, hop, hcond⟩
    simp only [Bool.and_eq_true, Bool.not_eq_true', List.isEmpty_eq_false_iff_exists_mem] at hcond
    obtain ⟨hpre, hne, hall⟩ := hcond
    refine ⟨op, hop, cs.drop op.data.length, eq_append_drop_of_isPrefixOf _ _ hpre, ?_, hall⟩
    obtain ⟨x, hx⟩ := hne
    intro hnil
    rw [hnil] at hx
    exact List.not_mem_nil x hx
  · rintro ⟨op, hop, v, rfl, hv, hall⟩
    refine ⟨op, hop, ?_⟩
    have hpre : op.data.isPrefixOf (op.data ++ v) = true :=
      List.isPrefixOf_iff_prefix.mpr ⟨_, rfl⟩
    simp only [hpre, List.drop_left, Bool.true_and, Bool.and_eq_true, Bool.not_eq_true',
      List.isEmpty_eq_false_iff_exists_mem]
    cases v with
    | nil => exact absurd rfl hv
    | cons y ys => exact ⟨⟨y, by simp⟩, hall⟩

lemma reqFormat_iff (s : String) : matchesRequirementFormat s = true ↔ ReqSpec s := by
  unfold matchesRequirementFormat ReqSpec
  cases hd : s.data with
  | nil => simp [reqFormatL]
  | cons c cs =>
    simp only [reqFormatL, Bool.and_eq_true, Bool.or_eq_true, List.isEmpty_iff]
    constructor
    · rintro ⟨hstart, hrest⟩
      refine ⟨c, cs.takeWhile isReqNameChar, cs.dropWhile isReqNameChar, ?_, hstart, ?_, ?_⟩
      · rw [List.takeWhile_append_dropWhile]
      · exact List.all_eq_true.mpr (fun x hx => List.mem_takeWhile_imp hx)
      · rcases hrest with h1 | h1
        · exact Or.inl h1
        · exact Or.inr ((matchesCmpVersion_iff _).mp h1)
    · rintro ⟨c', body, rest, heq, hstart, hbody, hrest⟩
      injection heq with h1 h2
      subst h1
      subst h2
      refine ⟨hstart, ?_⟩
      have hdw : (body ++ rest).dropWhile isReqNameChar = rest.dropWhile isReqNameChar :=
        dropWhile_append_of_all _ _ _ hbody
      rcases hrest with h1 | h1
      · subst h1
        left
        rw [hdw, List.dropWhile_nil]
      · obtain ⟨op, hop, v, rfl, hv, hall⟩ := h1
        right
        have hself : (op.data ++ v).dropWhile isReqNameChar = op.data ++ v := by
          have hhead : ∀ x xs, op.data ++ v = x :: xs → isReqNameChar x = false := by
            simp only [cmpOperators, List.mem_cons, List.not_mem_nil, or_false] at hop
            rcases hop with rfl | rfl | rfl | rfl | rfl | rfl | rfl | rfl <;>
              (intro x xs hx; injection hx with h1 _; subst h1; decide)
          exact dropWhile_eq_self_of_head _ _ hhead
        rw [hdw, hself]
        exact (matchesCmpVersion_iff _).mpr ⟨op, hop, v, rfl, hv, hall⟩

lemma sanity_first_failure (pre : List String) (r : String) (post : List String)
    (hpre : ∀ x ∈ pre, matchesRequirementFormat x = true)
    (hr : matchesRequirementFormat r = false) :
    _sanity_check_requirements (pre ++ r :: post)
      = .error ("Invalid format for the requirement `" ++ r ++ "`") := by
  induction pre with
  | nil => simp [_sanity_check_requirements, hr]
  | cons x xs ih =>
    have hx := hpre x (by simp)
    simp only [List.cons_append, _sanity_check_requirements, hx, if_true]
    exact ih (fun y hy => hpre y (by simp [hy]))

/-- C7: every specifier is checked by a full (not prefix) match of the
requirement grammar; the first failing specifier raises
`InvalidRequirements` naming it, and checking does not continue past it
(later entries are irrelevant).  Concretely, `"numpy"` passes while
`"numpy==1.2 x"` fails even though a prefix of it satisfies the grammar. -/
theorem claim7_requirement_grammar :
    (∀ s : String, matchesRequirementFormat s = true ↔ ReqSpec s)
  ∧ (∀ pre r post, (∀ x ∈ pre, matchesRequirementFormat x = true) →
        matchesRequirementFormat r = false →
        _sanity_check_requirements (pre ++ r :: post)
          = .error ("Invalid format for the requirement `" ++ r ++ "`"))
  ∧ matchesRequirementFormat "numpy" = true
  ∧ matchesRequirementFormat "numpy==1.2 x" = false
  ∧ ReqSpec "numpy==1.2" := by
  refine ⟨reqFormat_iff, sanity_first_failure, by decide, by decide, ?_⟩
  exact (reqFormat_iff "numpy==1.2").mp (by decide)

/-- C7 witness: the first-failure conjunct on a list whose second entry is
the first bad specifier; the error names exactly that entry. -/
theorem claim7_requirement_grammar_witness :
    _sanity_check_requirements (["numpy"] ++ "bad specifier" :: ["pandas"])
      = .error ("Invalid format for the requirement `" ++ "bad specifier" ++ "`") :=
  claim7_requirement_grammar.2.1 ["numpy"] "bad specifier" ["pandas"]
    (by intro x hx; simp at hx; subst hx; decide) (by decide)

/-! ### C8: comment-cell requirement extraction -/

lemma pyStrip_of_all_space (s : String) (h : s.data.all pyIsSpaceChar = true) :
    pyStrip s = "" := by
  unfold pyStrip
  have h1 : s.data.dropWhile pyIsSpaceChar = [] :=
    List.dropWhile_eq_nil_iff.mpr (fun x hx => List.all_eq_true.mp h x hx)
  rw [h1]
  rfl

lemma pyIsSpace_strip_dropOne (line : String) (h : pyIsSpace line = true) :
    pyStrip (pyDropOne line) = "" := by
  unfold pyIsSpace at h
  simp only [Bool.and_eq_true] at h
  apply pyStrip_of_all_space
  apply List.all_eq_true.mpr
  intro x hx
  exact List.all_eq_true.mp h.2 x (List.mem_of_mem_drop hx)

lemma extract_error_of_bad (lines : List String)
    (h : ∃ line ∈ lines, startsWithHash line = false ∧ pyIsSpace line = false) :
    _extract_comment_requirement_lines lines
      = .error "All lines in the requirement cell must start with #" := by
  induction lines with
  | nil => simp at h
  | cons x xs ih =>
    obtain ⟨line, hmem, hbad⟩ := h
    rcases List.mem_cons.mp hmem with rfl | hmem'
    · simp [_extract_comment_requirement_lines, hbad.1, hbad.2]
    · by_cases hx : (!startsWithHash x && !pyIsSpace x) = true
      · simp [_extract_comment_requirement_lines, hx]
      · have hrec := ih ⟨line, hmem', hbad⟩
        simp [_extract_comment_requirement_lines, hx, hrec]

lemma extract_ok_of_good (lines : List String)
    (h : ∀ line ∈ lines, startsWithHash line = true ∨ pyIsSpace line = true) :
    _extract_comment_requirement_lines lines
      = .ok (lines.filterMap (fun line =>
          if pyStrip (pyDropOne line) = "" then none
          else some (pyStrip (pyDropOne line)))) := by
  induction lines with
  | nil => simp [_extract_comment_requirement_lines]
  | cons x xs ih =>
    have hx := h x (by simp)
    have hcond : (!startsWithHash x && !pyIsSpace x) = false := by
      rcases hx with h1 | h1 <;> simp [h1]
    have hrec := ih (fun l hl => h l (by simp [hl]))
    simp only [_extract_comment_requirement_lines, hcond, Bool.false_eq_true, if_false, hrec,
      List.filterMap_cons]
    by_cases hreq : pyStrip (pyDropOne x) = "" <;> simp [hreq]

/-- C8: for a comment-marked requirement cell, extraction works on the lines
after the marker line; a remaining line that neither starts with `#` nor is
whitespace-only raises the fixed `InvalidRequirements` message; otherwise
each line contributes the text after its leading `#`, stripped, and lines
whose stripped remainder is empty — in particular every whitespace-only
line — are skipped. -/
theorem claim8_comment_cell_extraction :
    (∀ cell : Cell, _extract_comment_requirement_cell cell
        = _extract_comment_requirement_lines (cell.source.drop 1))
  ∧ (∀ lines : List String,
        (∃ line ∈ lines, startsWithHash line = false ∧ pyIsSpace line = false) →
        _extract_comment_requirement_lines lines
          = .error "All lines in the requirement cell must start with #")
  ∧ (∀ lines : List String,
        (∀ line ∈ lines, startsWithHash line = true ∨ pyIsSpace line = true) →
        _extract_comment_requirement_lines lines
          = .ok (lines.filterMap (fun line =>
              if pyStrip (pyDropOne line) = "" then none
              else some (pyStrip (pyDropOne line)))))
  ∧ (∀ line : String, pyIsSpace line = true →
        (if pyStrip (pyDropOne line) = "" then none
         else some (pyStrip (pyDropOne line))) = (none : Option String)) := by
  refine ⟨fun _ => rfl, extract_error_of_bad, extract_ok_of_good, ?_⟩
  intro line h
  rw [if_pos (pyIsSpace_strip_dropOne line h)]

/-- C8 witness: the error conjunct on a one-line cell body whose line does
not start with `#`. -/
theorem claim8_comment_cell_extraction_witness :
    _extract_comment_requirement_lines ["numpy"]
      = .error "All lines in the requirement cell must start with #" :=
  claim8_comment_cell_extraction.2.1 ["numpy"] ⟨"numpy", by simp, by decide, by decide⟩

/-! ### C10 and C6: requirement-cell counting -/

lemma raw_false_of_comment (cell : Cell) (h : _is_comment_requirement_cell cell = true) :
    _is_raw_requirement_cell cell = false := by
  simp only [_is_comment_requirement_cell, Bool.and_eq_true, beq_iff_eq] at h
  simp [_is_raw_requirement_cell, h.1.1]

/-- C10: a single qualifying requirement cell with nothing extractable is
not an error: a tagged raw cell whose lines all strip to empty, or a
comment-marked cell whose body lines are whitespace-only or empty comments,
yields the empty specifier list. -/
theorem claim10_empty_requirements :
    (∀ (nb : Notebook) (cell : Cell), _requirement_cells nb = [cell] →
        _is_raw_requirement_cell cell = true →
        (∀ l ∈ cell.source, pyStrip l = "") →
        extract_requirements nb = .ok [])
  ∧ (∀ (nb : Notebook) (cell : Cell), _requirement_cells nb = [cell] →
        _is_comment_requirement_cell cell = true →
        (∀ l ∈ cell.source.drop 1, pyIsSpace l = true ∨
          (startsWithHash l = true ∧ pyStrip (pyDropOne l) = "")) →
        extract_requirements nb = .ok []) := by
  constructor
  · intro nb cell hcells hraw hblank
    have hempty : _extract_raw_requirement_cell cell = [] := by
      unfold _extract_raw_requirement_cell
      apply List.filter_eq_nil_iff.mpr
      intro x hx
      obtain ⟨l, hl, rfl⟩ := List.mem_map.mp hx
      simp [hblank l hl]
    unfold extract_requirements
    rw [hcells]
    simp only [hraw, if_true, hempty]
    rfl
  · intro nb cell hcells hcom hblank
    have hnotraw := raw_false_of_comment cell hcom
    have hok : _extract_comment_requirement_cell cell = .ok [] := by
      unfold _extract_comment_requirement_cell
      rw [extract_ok_of_good _ (fun l hl => by
        rcases hblank l hl with h1 | h1
        · exact Or.inr h1
        · exact Or.inl h1.1)]
      congr 1
      apply List.filterMap_eq_nil_iff.mpr
      intro l hl
      rcases hblank l hl with h1 | h1
      · rw [if_pos (pyIsSpace_strip_dropOne l h1)]
      · rw [if_pos h1.2]
    unfold extract_requirements
    rw [hcells]
    simp only [hnotraw, Bool.false_eq_true, if_false, hcom, if_true, hok]
    rfl

/-- C10 witness: the raw conjunct at a one-cell notebook whose requirement
cell holds only whitespace. -/
theorem claim10_empty_requirements_witness :
    extract_requirements ⟨[⟨"raw", [" ", "\n"], some ["requirements"]⟩]⟩ = .ok [] :=
  claim10_empty_requirements.1 ⟨[⟨"raw", [" ", "\n"], some ["requirements"]⟩]⟩
    ⟨"raw", [" ", "\n"], some ["requirements"]⟩ (by decide) (by decide) (by decide)

/-- A notebook holding both a tagged raw requirement cell and a
comment-marked requirement cell. -/
def mixedNotebook : Notebook :=
  ⟨[⟨"raw", ["numpy"], some ["requirements"]⟩,
    ⟨"code", ["# !requirements\n", "# pandas"], none⟩]⟩

/-- C6: `extract_requirements` raises `InvalidRequirements` when zero cells
qualify and when two or more qualify (in particular for one tagged raw cell
plus one comment-marked code cell, as in `mixedNotebook`); with exactly one
qualifying cell it proceeds to that cell's extraction and the sanity
check. -/
theorem claim6_requirement_cell_count :
    (∀ nb : Notebook, _requirement_cells nb = [] →
        extract_requirements nb = .error "Couldn\x27t find any requirements")
  ∧ (∀ nb : Notebook, 2 ≤ (_requirement_cells nb).length →
        extract_requirements nb
          = .error "Only one requirement cell is allowed, but found multiple")
  ∧ (∀ (nb : Notebook) (cell : Cell), _requirement_cells nb = [cell] →
        _is_raw_requirement_cell cell = true →
        extract_requirements nb
          = match _sanity_check_requirements (_extract_raw_requirement_cell cell) with
            | .ok _ => .ok (_extract_raw_requirement_cell cell)
            | .error e => .error e)
  ∧ (∀ (nb : Notebook) (cell : Cell), _requirement_cells nb = [cell] →
        _is_comment_requirement_cell cell = true →
        extract_requirements nb
          = match _extract_comment_requirement_cell cell with
            | .error e => .error e
            | .ok rs =>
              match _sanity_check_requirements rs with
              | .error e => .error e
              | .ok _ => .ok rs)
  ∧ extract_requirements mixedNotebook
      = .error "Only one requirement cell is allowed, but found multiple" := by
  refine ⟨?_, ?_, ?_, ?_, by decide⟩
  · intro nb h
    unfold extract_requirements
    rw [h]
  · intro nb h
    cases hc : _requirement_cells nb with
    | nil => rw [hc] at h; simp at h
    | cons a rest =>
      cases rest with
      | nil => rw [hc] at h; simp at h
      | cons b rest' =>
        unfold extract_requirements
        rw [hc]
  · intro nb cell hcells hraw
    unfold extract_requirements
    rw [hcells]
    simp only [hraw, if_true]
    cases hs : _sanity_check_requirements (_extract_raw_requirement_cell cell) <;> simp [hs]
  · intro nb cell hcells hcom
    have hnotraw := raw_false_of_comment cell hcom
    unfold extract_requirements
    rw [hcells]
    simp only [hnotraw, Bool.false_eq_true, if_false, hcom, if_true]

/-- C6 witness: the zero-cells conjunct at the empty notebook. -/
theorem claim6_requirement_cell_count_witness :
    extract_requirements ⟨[]⟩ = .error "Couldn\x27t find any requirements" :=
  claim6_requirement_cell_count.1 ⟨[]⟩ (by decide)

end CogniteNotebook
